import Mathlib

/-!
# Verification of the mirror_write stroke-capture and rendering pipeline

A shallow embedding of the core of the `mirror_write` dual-surface
whiteboard: the geometry/stroke data model (`src/unnamed/part_000`,
the types file), the stroke renderer `drawStroke`
(`src/unnamed/part_000`, the draw-utils file), the per-zone `render`
function (`src/components/CanvasZone.tsx`), and the pointer-event /
toggle handlers of the top-level controller (`src/App.tsx`).

Canvas 2D contexts are modelled by the list of drawing commands a call
issues (`DrawCmd`); the surface content is a pure function of that
command list, so equal command lists give pixel-identical surfaces.
JavaScript numbers are modelled as rationals (`ℚ`).
-/

namespace MirrorWrite

/-- A normalized point, `x`/`y` in `[0,1]` (types file, `Point`). -/
structure Point where
  x : ℚ
  y : ℚ
deriving DecidableEq, Repr

/-- A stroke (types file, `Stroke`): point list, hex color string, width,
eraser flag.  The TS field `isEraser?: boolean` is optional with `undefined`
falsy, so it is modelled as `Bool` (the app always sets it explicitly). -/
structure Stroke where
  points : List Point
  color : String
  width : ℚ
  isEraser : Bool
deriving DecidableEq, Repr

/-- The two zone tags (types file, `enum ActiveZone`). -/
inductive ActiveZone where
  | TOP
  | BOTTOM
deriving DecidableEq, Repr

/-- Tool selector (types file, `type ToolType = "pen" | "eraser"`). -/
inductive ToolType where
  | pen
  | eraser
deriving DecidableEq, Repr

/-- Canvas 2D compositing modes used by the renderer. -/
inductive CompositeOp where
  | sourceOver
  | destinationOut
deriving DecidableEq, Repr

/-- One imperative canvas command issued by the renderer.  A call on a
`CanvasRenderingContext2D` is modelled by the sequence of such commands
it performs; the resulting raster is a function of that sequence. -/
inductive DrawCmd where
  | beginPath
  | setLineCap (cap : String)
  | setLineJoin (join : String)
  | setCompositeOp (op : CompositeOp)
  | setStrokeStyle (style : String)
  | setLineWidth (w : ℚ)
  | moveTo (x y : ℚ)
  | lineTo (x y : ℚ)
  | strokePath
  | clearRect (x y w h : ℚ)
deriving DecidableEq, Repr

/-- The per-coordinate Y transform of `drawStroke` (draw-utils file):
`isMirror ? (1 - p.y) * height : p.y * height`. -/
def transformY (y height : ℚ) (isMirror : Bool) : ℚ :=
  if isMirror then (1 - y) * height else y * height

/-- `drawStroke` (draw-utils file): emits the canvas commands for one
stroke on a surface of logical size `width × height`, mirrored when
`isMirror`.  Zero points: early return, nothing emitted.  One point:
`moveTo` then `lineTo` the same pixel (the round cap draws a dot).
Otherwise `moveTo` the first point and `lineTo` each subsequent one. -/
def drawStroke (stroke : Stroke) (width height : ℚ) (isMirror : Bool) :
    List DrawCmd :=
  match stroke.points with
  | [] => []
  | p0 :: rest =>
    let startX := p0.x * width
    let startY := transformY p0.y height isMirror
    [DrawCmd.beginPath, DrawCmd.setLineCap "round", DrawCmd.setLineJoin "round"]
    ++ (if stroke.isEraser then
          [DrawCmd.setCompositeOp CompositeOp.destinationOut,
           DrawCmd.setStrokeStyle "rgba(0,0,0,1)"]
        else
          [DrawCmd.setCompositeOp CompositeOp.sourceOver,
           DrawCmd.setStrokeStyle stroke.color])
    ++ [DrawCmd.setLineWidth stroke.width, DrawCmd.moveTo startX startY]
    ++ (if rest.isEmpty then
          [DrawCmd.lineTo startX startY]
        else
          rest.map fun p =>
            DrawCmd.lineTo (p.x * width) (transformY p.y height isMirror))
    ++ [DrawCmd.strokePath, DrawCmd.setCompositeOp CompositeOp.sourceOver]

/-- The compositing mode of the context after executing one command. -/
def applyCmd (op : CompositeOp) (c : DrawCmd) : CompositeOp :=
  match c with
  | DrawCmd.setCompositeOp o => o
  | _ => op

/-- The compositing mode of the context after executing a command list
starting from mode `init`. -/
def finalCompositeOp (cmds : List DrawCmd) (init : CompositeOp) : CompositeOp :=
  cmds.foldl applyCmd init

/-- The pixel coordinates of the path vertices (`moveTo`/`lineTo`) in a
command list, in emission order. -/
def pathPoints (cmds : List DrawCmd) : List (ℚ × ℚ) :=
  cmds.filterMap fun c =>
    match c with
    | DrawCmd.moveTo x y => some (x, y)
    | DrawCmd.lineTo x y => some (x, y)
    | _ => none

/-- `isMirror` in `CanvasZone.tsx`: `activeZone !== zoneType`. -/
def isMirror (zoneType activeZone : ActiveZone) : Bool :=
  decide (activeZone ≠ zoneType)

/-- `isActiveWritingZone` in `CanvasZone.tsx`: `activeZone === zoneType`. -/
def isActiveWritingZone (zoneType activeZone : ActiveZone) : Bool :=
  decide (activeZone = zoneType)

/-- `shouldShowContent` in `CanvasZone.tsx`:
`!(isActiveWritingZone && isHidden)`. -/
def shouldShowContent (zoneType activeZone : ActiveZone) (isHidden : Bool) :
    Bool :=
  !(isActiveWritingZone zoneType activeZone && isHidden)

/-- The `render` callback of `CanvasZone.tsx`, as the command sequence it
issues: `clearRect` over the physical buffer; stop if content is hidden;
otherwise draw every committed stroke via `forEach` (left fold, log order)
and then the in-progress stroke, if any.  `logicalWidth`/`logicalHeight`
are `canvas.width / dpr` and `canvas.height / dpr` in the source, passed
here already divided. -/
def render (canvasW canvasH : ℚ) (showContent : Bool) (strokes : List Stroke)
    (currentStroke : Option Stroke) (logicalWidth logicalHeight : ℚ)
    (mirror : Bool) : List DrawCmd :=
  DrawCmd.clearRect 0 0 canvasW canvasH ::
    (if !showContent then []
     else
       (strokes.foldl
          (fun acc s => acc ++ drawStroke s logicalWidth logicalHeight mirror)
          [])
       ++ (match currentStroke with
           | none => []
           | some s => drawStroke s logicalWidth logicalHeight mirror))

/-- The full render of one zone (`CanvasZone.tsx`): visibility and mirror
flags computed from the zone tag, the active-zone tag and the hidden flag,
then `render`. -/
def zoneRender (zoneType activeZone : ActiveZone) (isHidden : Bool)
    (canvasW canvasH : ℚ) (strokes : List Stroke)
    (currentStroke : Option Stroke) (logicalWidth logicalHeight : ℚ) :
    List DrawCmd :=
  render canvasW canvasH (shouldShowContent zoneType activeZone isHidden)
    strokes currentStroke logicalWidth logicalHeight
    (isMirror zoneType activeZone)

/-- The top-level controller state of `App.tsx`: the stroke log, the
in-progress stroke, the tool settings read at stroke start, the active
zone and the hidden flag. -/
structure AppState where
  strokes : List Stroke
  currentStroke : Option Stroke
  currentTool : ToolType
  penColor : String
  penWidth : ℚ
  eraserWidth : ℚ
  activeZone : ActiveZone
  hideActiveZone : Bool
deriving DecidableEq, Repr

/-- `handlePointerDown` in `App.tsx`.  A mouse event with `buttons !== 1`
is rejected; otherwise a fresh one-point stroke with the current tool's
attributes becomes the in-progress stroke (any previous one is dropped,
uncommitted). -/
def handlePointerDown (st : AppState) (pointerType : String) (buttons : ℕ)
    (point : Point) : AppState :=
  if pointerType = "mouse" ∧ buttons ≠ 1 then st
  else
    { st with
      currentStroke := some
        { points := [point]
          color := st.penColor
          width := if st.currentTool = ToolType.eraser then st.eraserWidth
                   else st.penWidth
          isEraser := decide (st.currentTool = ToolType.eraser) } }

/-- `handlePointerMove` in `App.tsx`.  No-op when idle; a mouse event with
`buttons !== 1` commits the in-progress stroke as if pointer-up; otherwise
the point is appended to the in-progress stroke. -/
def handlePointerMove (st : AppState) (pointerType : String) (buttons : ℕ)
    (point : Point) : AppState :=
  match st.currentStroke with
  | none => st
  | some cur =>
    if pointerType = "mouse" ∧ buttons ≠ 1 then
      { st with strokes := st.strokes ++ [cur], currentStroke := none }
    else
      { st with
        currentStroke := some { cur with points := cur.points ++ [point] } }

/-- `handlePointerUp` in `App.tsx`.  No-op when idle; otherwise the
in-progress stroke is appended to the stroke log and cleared. -/
def handlePointerUp (st : AppState) : AppState :=
  match st.currentStroke with
  | none => st
  | some cur =>
    { st with strokes := st.strokes ++ [cur], currentStroke := none }

/-- `handleClearStrokes` in `App.tsx`: empties the stroke log and also
discards the in-progress stroke. -/
def handleClearStrokes (st : AppState) : AppState :=
  { st with strokes := [], currentStroke := none }

/-- The `onToggleSide` callback in `App.tsx`:
`prev === TOP ? BOTTOM : TOP`. -/
def onToggleSide (st : AppState) : AppState :=
  { st with
    activeZone :=
      if st.activeZone = ActiveZone.TOP then ActiveZone.BOTTOM
      else ActiveZone.TOP }

/-- `handlePointerDown` of `CanvasZone.tsx`: the zone forwards a
pointer-down to the app handler only when it is the active writing
zone. -/
def zonePointerDown (st : AppState) (zone : ActiveZone)
    (pointerType : String) (buttons : ℕ) (point : Point) : AppState :=
  if isActiveWritingZone zone st.activeZone then
    handlePointerDown st pointerType buttons point
  else st

/-- `handlePointerMove` of `CanvasZone.tsx`: forwarded only from the
active writing zone. -/
def zonePointerMove (st : AppState) (zone : ActiveZone)
    (pointerType : String) (buttons : ℕ) (point : Point) : AppState :=
  if isActiveWritingZone zone st.activeZone then
    handlePointerMove st pointerType buttons point
  else st

/-- `onPointerUp`/`onPointerLeave` wiring of `CanvasZone.tsx`: the handler
is attached only on the active writing zone (`undefined` otherwise). -/
def zonePointerUp (st : AppState) (zone : ActiveZone) : AppState :=
  if isActiveWritingZone zone st.activeZone then handlePointerUp st
  else st

/-! ## Helper lemmas -/

/-- The `forEach` accumulation in `render` concatenates the per-stroke
command lists in list order. -/
lemma foldl_append_eq_flatten (f : Stroke → List DrawCmd)
    (l : List Stroke) (acc : List DrawCmd) :
    l.foldl (fun a s => a ++ f s) acc = acc ++ (l.map f).flatten := by
  induction l generalizing acc with
  | nil => simp
  | cons s t ih => simp [ih, List.append_assoc]

/-- Closed form of `render` when content is shown: clear, the committed
strokes in log order, then the in-progress stroke. -/
lemma render_show_eq (canvasW canvasH : ℚ) (strokes : List Stroke)
    (cur : Option Stroke) (lw lh : ℚ) (m : Bool) :
    render canvasW canvasH true strokes cur lw lh m =
      DrawCmd.clearRect 0 0 canvasW canvasH ::
        ((strokes.map fun s => drawStroke s lw lh m).flatten
          ++ cur.elim [] fun s => drawStroke s lw lh m) := by
  cases cur <;> simp [render, foldl_append_eq_flatten]

/-- A `filterMap` whose function always succeeds is a `map`. -/
lemma filterMap_eq_map_of_some {α β : Type} (f : α → β) (g : α → Option β)
    (hg : ∀ a, g a = some (f a)) (l : List α) : l.filterMap g = l.map f := by
  induction l with
  | nil => rfl
  | cons a t ih => simp [List.filterMap_cons, hg, ih]

/-- The path vertices emitted by `drawStroke`: none for an empty stroke,
the transformed point twice for a single-point stroke, and the transformed
points in order otherwise. -/
lemma pathPoints_drawStroke (s : Stroke) (W H : ℚ) (m : Bool) :
    pathPoints (drawStroke s W H m) =
      match s.points with
      | [] => []
      | [p] => [(p.x * W, transformY p.y H m), (p.x * W, transformY p.y H m)]
      | ps => ps.map fun p => (p.x * W, transformY p.y H m) := by
  match h : s.points with
  | [] => simp [drawStroke, pathPoints, h]
  | [p] =>
    cases he : s.isEraser <;>
      simp [drawStroke, pathPoints, h, he, List.filterMap_append]
  | p :: q :: rest =>
    cases he : s.isEraser <;>
      simp [drawStroke, pathPoints, h, he, List.filterMap_append,
        List.filterMap_map] <;>
      exact filterMap_eq_map_of_some _ _ (fun a => rfl) rest

/-! ## Claims -/

/-- C9.  In every controller state the active zone is one of the two tags;
toggling the side moves to the other tag and toggling twice returns; the
active zone renders unmirrored while the mirror flags of TOP and BOTTOM
always differ, so exactly one zone is mirrored; and each zone's mirror
flag is exactly "zone tag differs from active tag". -/
theorem active_zone_mirror_invariant (st : AppState) :
    (st.activeZone = ActiveZone.TOP ∨ st.activeZone = ActiveZone.BOTTOM) ∧
    (onToggleSide st).activeZone ≠ st.activeZone ∧
    (onToggleSide (onToggleSide st)).activeZone = st.activeZone ∧
    isMirror st.activeZone st.activeZone = false ∧
    (∀ z : ActiveZone, isMirror z st.activeZone = decide (z ≠ st.activeZone)) ∧
    isMirror ActiveZone.TOP st.activeZone ≠
      isMirror ActiveZone.BOTTOM st.activeZone := by
  obtain ⟨strokes, cur, tool, color, pw, ew, az, hid⟩ := st
  cases az <;>
    refine ⟨by simp, by simp [onToggleSide], by simp [onToggleSide],
      by simp [isMirror], fun z => ?_, by simp [isMirror]⟩ <;>
    cases z <;> simp [isMirror]

/-- C2.  An accepted pointer-down on the active zone creates an in-progress
stroke holding exactly the down point; a pointer-up on the active zone of
ANY state with an in-progress stroke — however many points that stroke
has — appends that stroke atomically to the end of the stroke log and
clears the in-progress stroke to absent; hence one down/up gesture grows
the log by exactly one (from an empty log, to length 1), leaving no
in-progress stroke. -/
theorem gesture_commit (st : AppState) (pt : String) (b : ℕ) (p : Point)
    (haccept : ¬(pt = "mouse" ∧ b ≠ 1)) :
    (∃ c : Stroke,
      (zonePointerDown st st.activeZone pt b p).currentStroke = some c ∧
      c.points = [p] ∧
      (zonePointerDown st st.activeZone pt b p).strokes = st.strokes) ∧
    (∀ (st' : AppState) (c : Stroke), st'.currentStroke = some c →
      (zonePointerUp st' st'.activeZone).strokes = st'.strokes ++ [c] ∧
      (zonePointerUp st' st'.activeZone).currentStroke = none) ∧
    (zonePointerUp (zonePointerDown st st.activeZone pt b p)
        st.activeZone).strokes.length = st.strokes.length + 1 ∧
    (zonePointerUp (zonePointerDown st st.activeZone pt b p)
        st.activeZone).currentStroke = none := by
  have hup : ∀ (st' : AppState) (c : Stroke), st'.currentStroke = some c →
      (zonePointerUp st' st'.activeZone).strokes = st'.strokes ++ [c] ∧
      (zonePointerUp st' st'.activeZone).currentStroke = none := by
    intro st' c hc
    constructor <;>
      simp [zonePointerUp, isActiveWritingZone, handlePointerUp, hc]
  refine ⟨⟨{ points := [p], color := st.penColor,
             width := if st.currentTool = ToolType.eraser then st.eraserWidth
                      else st.penWidth,
             isEraser := decide (st.currentTool = ToolType.eraser) },
           ?_, ?_, ?_⟩, hup, ?_, ?_⟩ <;>
    simp [zonePointerDown, zonePointerUp, isActiveWritingZone,
      handlePointerDown, handlePointerUp, haccept]

/-- The initial controller state (empty log, no gesture) for C2's
witness. -/
def initGestureState : AppState :=
  { strokes := [], currentStroke := none, currentTool := ToolType.pen,
    penColor := "#000000", penWidth := 4, eraserWidth := 20,
    activeZone := ActiveZone.BOTTOM, hideActiveZone := false }

/-- A three-point in-progress stroke for C2's witness, exercising the
commit of a stroke with more than one point. -/
def threePointStroke : Stroke :=
  { points := [⟨1/4, 1/4⟩, ⟨1/2, 1/2⟩, ⟨3/4, 3/4⟩], color := "#000000",
    width := 4, isEraser := false }

/-- A mid-gesture controller state whose in-progress stroke has three
points, for C2's witness. -/
def midGestureState : AppState :=
  { strokes := [{ points := [⟨1/8, 1/8⟩], color := "#000000", width := 4,
                  isEraser := false }]
    currentStroke := some threePointStroke
    currentTool := ToolType.pen
    penColor := "#000000"
    penWidth := 4
    eraserWidth := 20
    activeZone := ActiveZone.TOP
    hideActiveZone := false }

/-- C2 witness: a concrete mouse down/up gesture from the initial state
(log grows from length 0 to 1), plus a pointer-up committing a concrete
three-point in-progress stroke. -/
theorem gesture_commit_witness :
    (∃ c : Stroke,
      (zonePointerDown initGestureState initGestureState.activeZone
          "mouse" 1 ⟨1/2, 1/2⟩).currentStroke = some c ∧
      c.points = [⟨1/2, 1/2⟩] ∧
      (zonePointerDown initGestureState initGestureState.activeZone
          "mouse" 1 ⟨1/2, 1/2⟩).strokes = initGestureState.strokes) ∧
    ((zonePointerUp midGestureState midGestureState.activeZone).strokes =
        midGestureState.strokes ++ [threePointStroke] ∧
      (zonePointerUp midGestureState
          midGestureState.activeZone).currentStroke = none) ∧
    (zonePointerUp
        (zonePointerDown initGestureState initGestureState.activeZone
          "mouse" 1 ⟨1/2, 1/2⟩)
        initGestureState.activeZone).strokes.length =
      initGestureState.strokes.length + 1 ∧
    (zonePointerUp
        (zonePointerDown initGestureState initGestureState.activeZone
          "mouse" 1 ⟨1/2, 1/2⟩)
        initGestureState.activeZone).currentStroke = none :=
  ⟨(gesture_commit initGestureState "mouse" 1 ⟨1/2, 1/2⟩ (by simp)).1,
   (gesture_commit initGestureState "mouse" 1 ⟨1/2, 1/2⟩ (by simp)).2.1
     midGestureState threePointStroke rfl,
   (gesture_commit initGestureState "mouse" 1 ⟨1/2, 1/2⟩ (by simp)).2.2.1,
   (gesture_commit initGestureState "mouse" 1 ⟨1/2, 1/2⟩ (by simp)).2.2.2⟩

/-- C10.  An accepted pointer-down on the active zone while a gesture is
already in progress replaces the in-progress stroke with a fresh one-point
stroke; the stroke log is unchanged, so the prior gesture's points are
never committed. -/
theorem down_discards_in_progress (st : AppState) (c : Stroke) (pt : String)
    (b : ℕ) (p : Point) (hcur : st.currentStroke = some c)
    (haccept : ¬(pt = "mouse" ∧ b ≠ 1)) :
    (zonePointerDown st st.activeZone pt b p).currentStroke =
      some { points := [p], color := st.penColor,
             width := if st.currentTool = ToolType.eraser then st.eraserWidth
                      else st.penWidth,
             isEraser := decide (st.currentTool = ToolType.eraser) } ∧
    (zonePointerDown st st.activeZone pt b p).strokes = st.strokes := by
  constructor <;>
    simp [zonePointerDown, isActiveWritingZone, handlePointerDown, haccept]

/-- C10 witness: a touch down while a one-point gesture is in progress. -/
theorem down_discards_in_progress_witness :
    (zonePointerDown
        { strokes := [], currentStroke :=
            some { points := [⟨1/4, 1/4⟩], color := "#000000", width := 4,
                   isEraser := false },
          currentTool := ToolType.pen, penColor := "#000000", penWidth := 4,
          eraserWidth := 20, activeZone := ActiveZone.TOP,
          hideActiveZone := false }
        ActiveZone.TOP "touch" 0 ⟨3/4, 3/4⟩).currentStroke =
      some { points := [⟨3/4, 3/4⟩], color := "#000000",
             width := if ToolType.pen = ToolType.eraser then 20 else (4 : ℚ),
             isEraser := decide (ToolType.pen = ToolType.eraser) } ∧
    (zonePointerDown
        { strokes := [], currentStroke :=
            some { points := [⟨1/4, 1/4⟩], color := "#000000", width := 4,
                   isEraser := false },
          currentTool := ToolType.pen, penColor := "#000000", penWidth := 4,
          eraserWidth := 20, activeZone := ActiveZone.TOP,
          hideActiveZone := false }
        ActiveZone.TOP "touch" 0 ⟨3/4, 3/4⟩).strokes = [] :=
  down_discards_in_progress
    { strokes := [], currentStroke :=
        some { points := [⟨1/4, 1/4⟩], color := "#000000", width := 4,
               isEraser := false },
      currentTool := ToolType.pen, penColor := "#000000", penWidth := 4,
      eraserWidth := 20, activeZone := ActiveZone.TOP,
      hideActiveZone := false }
    { points := [⟨1/4, 1/4⟩], color := "#000000", width := 4,
      isEraser := false }
    "touch" 0 ⟨3/4, 3/4⟩ rfl (by simp)

/-- A concrete mid-gesture controller state used to refute C1 as stated:
one committed stroke in the log and a one-point gesture in progress. -/
def clearCexState : AppState :=
  { strokes := [{ points := [⟨1/4, 1/4⟩], color := "#000000", width := 4,
                  isEraser := false }]
    currentStroke := some { points := [⟨1/2, 1/2⟩], color := "#000000",
                            width := 4, isEraser := false }
    currentTool := ToolType.pen
    penColor := "#000000"
    penWidth := 4
    eraserWidth := 20
    activeZone := ActiveZone.BOTTOM
    hideActiveZone := false }

/-- C1 counterexample.  With a gesture in progress, `handleClearStrokes`
does not leave the in-progress stroke unaffected: it discards it, and the
subsequent pointer-up commits nothing, so the log does not end up holding
the one newly committed stroke the claim promises. -/
theorem clear_preserves_gesture_cex :
    ¬ ((handleClearStrokes clearCexState).currentStroke =
          clearCexState.currentStroke ∧
       (handlePointerUp (handleClearStrokes clearCexState)).strokes.length
          = 1) := by
  decide

/-- C1 amended.  If the clear action is invoked while a drawing gesture is
in progress, the stroke log becomes empty AND the in-progress stroke is
discarded (clear cancels the active gesture); the subsequent pointer-up is
a no-op and the stroke log stays empty. -/
theorem clear_cancels_gesture (st : AppState) (c : Stroke)
    (hcur : st.currentStroke = some c) :
    (handleClearStrokes st).strokes = [] ∧
    (handleClearStrokes st).currentStroke = none ∧
    handlePointerUp (handleClearStrokes st) = handleClearStrokes st ∧
    (handlePointerUp (handleClearStrokes st)).strokes = [] := by
  refine ⟨rfl, rfl, ?_, ?_⟩ <;> simp [handleClearStrokes, handlePointerUp]

/-- C1 amended witness: the counterexample state, where a gesture is in
progress. -/
theorem clear_cancels_gesture_witness :
    (handleClearStrokes clearCexState).strokes = [] ∧
    (handleClearStrokes clearCexState).currentStroke = none ∧
    handlePointerUp (handleClearStrokes clearCexState) =
      handleClearStrokes clearCexState ∧
    (handlePointerUp (handleClearStrokes clearCexState)).strokes = [] :=
  clear_cancels_gesture clearCexState
    { points := [⟨1/2, 1/2⟩], color := "#000000", width := 4,
      isEraser := false }
    rfl

/-- C5.  When content is shown, the emitted command sequence is exactly:
the clear, then the commands of the committed strokes in log order
(oldest first), then the commands of the in-progress stroke, if any, last.
`render` is a pure function of the stroke log, the in-progress stroke and
the zone flags, so this sequence is deterministic for given inputs. -/
theorem render_log_order (canvasW canvasH : ℚ) (strokes : List Stroke)
    (cur : Option Stroke) (lw lh : ℚ) (m : Bool) :
    render canvasW canvasH true strokes cur lw lh m =
      DrawCmd.clearRect 0 0 canvasW canvasH ::
        ((strokes.map fun s => drawStroke s lw lh m).flatten
          ++ cur.elim [] fun s => drawStroke s lw lh m) :=
  render_show_eq canvasW canvasH strokes cur lw lh m

/-- C8.  `showContent` is false exactly when the zone is the active one
and the hidden flag is set; a zone with hidden content only clears its
surface and draws nothing else.  In particular with active = BOTTOM and
hidden = true, the BOTTOM zone's render is just the clear, while the TOP
zone is mirrored and still draws every committed stroke, in log order and
vertically flipped, plus the in-progress stroke. -/
theorem hidden_zone_render (zoneType activeZone : ActiveZone) (hidden : Bool)
    (canvasW canvasH : ℚ) (strokes : List Stroke) (cur : Option Stroke)
    (lw lh : ℚ) :
    (shouldShowContent zoneType activeZone hidden = false ↔
      activeZone = zoneType ∧ hidden = true) ∧
    (shouldShowContent zoneType activeZone hidden = false →
      zoneRender zoneType activeZone hidden canvasW canvasH strokes cur lw lh
        = [DrawCmd.clearRect 0 0 canvasW canvasH]) ∧
    zoneRender ActiveZone.BOTTOM ActiveZone.BOTTOM true canvasW canvasH
        strokes cur lw lh = [DrawCmd.clearRect 0 0 canvasW canvasH] ∧
    isMirror ActiveZone.TOP ActiveZone.BOTTOM = true ∧
    zoneRender ActiveZone.TOP ActiveZone.BOTTOM true canvasW canvasH
        strokes cur lw lh =
      DrawCmd.clearRect 0 0 canvasW canvasH ::
        ((strokes.map fun s => drawStroke s lw lh true).flatten
          ++ cur.elim [] fun s => drawStroke s lw lh true) := by
  refine ⟨?_, ?_, ?_, rfl, ?_⟩
  · simp [shouldShowContent, isActiveWritingZone]
  · intro h
    simp [zoneRender, render, h]
  · simp [zoneRender, shouldShowContent, isActiveWritingZone, render]
  · have hm : isMirror ActiveZone.TOP ActiveZone.BOTTOM = true := rfl
    have hs : shouldShowContent ActiveZone.TOP ActiveZone.BOTTOM true = true := rfl
    rw [zoneRender, hm, hs]
    exact render_show_eq canvasW canvasH strokes cur lw lh true

/-- C8 witness: the hidden active BOTTOM zone at a concrete surface size
with one committed stroke; the visibility hypothesis is discharged by
evaluation. -/
theorem hidden_zone_render_witness :
    zoneRender ActiveZone.BOTTOM ActiveZone.BOTTOM true 640 480
        [{ points := [⟨1/2, 1/2⟩], color := "#000000", width := 4,
           isEraser := false }] none 320 240
      = [DrawCmd.clearRect 0 0 640 480] ∧
    isMirror ActiveZone.TOP ActiveZone.BOTTOM = true :=
  ⟨(hidden_zone_render ActiveZone.BOTTOM ActiveZone.BOTTOM true 640 480
      [{ points := [⟨1/2, 1/2⟩], color := "#000000", width := 4,
         isEraser := false }] none 320 240).2.1 rfl,
   (hidden_zone_render ActiveZone.BOTTOM ActiveZone.BOTTOM true 640 480
      [{ points := [⟨1/2, 1/2⟩], color := "#000000", width := 4,
         isEraser := false }] none 320 240).2.2.2.1⟩

/-- Membership characterization of the path vertices of `drawStroke`: the
emitted vertices are exactly the stroke's points under the §4.1 pixel
transform. -/
lemma mem_pathPoints_drawStroke (s : Stroke) (W H : ℚ) (m : Bool)
    (q : ℚ × ℚ) :
    q ∈ pathPoints (drawStroke s W H m) ↔
      ∃ p ∈ s.points, q = (p.x * W, transformY p.y H m) := by
  rw [pathPoints_drawStroke]
  match hp : s.points with
  | [] => simp
  | [p] => simp
  | p :: r :: rest =>
    simp only [List.mem_map, List.mem_cons]
    constructor <;> rintro ⟨a, ha, h⟩ <;> exact ⟨a, ha, h.symm⟩

/-- C3.  Every path vertex the renderer emits for a stroke is the §4.1
transform of one of the stroke's points — `(p.x*W, p.y*H)` unmirrored and
`(p.x*W, (1-p.y)*H)` mirrored — and every point of the stroke (start and
subsequent alike) is so emitted; mirroring an already-mirrored Y
coordinate gives back the unmirrored pixel Y. -/
theorem mirror_pixel_transform (s : Stroke) (W H : ℚ) :
    (∀ q ∈ pathPoints (drawStroke s W H false),
      ∃ p ∈ s.points, q = (p.x * W, p.y * H)) ∧
    (∀ q ∈ pathPoints (drawStroke s W H true),
      ∃ p ∈ s.points, q = (p.x * W, (1 - p.y) * H)) ∧
    (∀ p ∈ s.points,
      (p.x * W, p.y * H) ∈ pathPoints (drawStroke s W H false)) ∧
    (∀ p ∈ s.points,
      (p.x * W, (1 - p.y) * H) ∈ pathPoints (drawStroke s W H true)) ∧
    (∀ y : ℚ, transformY (1 - y) H true = transformY y H false) := by
  refine ⟨?_, ?_, ?_, ?_, ?_⟩
  · intro q hq
    obtain ⟨p, hp, rfl⟩ := (mem_pathPoints_drawStroke s W H false q).1 hq
    exact ⟨p, hp, by simp [transformY]⟩
  · intro q hq
    obtain ⟨p, hp, rfl⟩ := (mem_pathPoints_drawStroke s W H true q).1 hq
    exact ⟨p, hp, by simp [transformY]⟩
  · intro p hp
    exact (mem_pathPoints_drawStroke s W H false _).2 ⟨p, hp, by
      simp [transformY]⟩
  · intro p hp
    exact (mem_pathPoints_drawStroke s W H true _).2 ⟨p, hp, by
      simp [transformY]⟩
  · intro y
    simp [transformY]

/-- A concrete two-point pen stroke used as C3's witness input. -/
def twoPointStroke : Stroke :=
  { points := [⟨1/2, 1/4⟩, ⟨1/3, 3/4⟩], color := "#000000", width := 4,
    isEraser := false }

/-- C3 witness: the first point of a concrete stroke is emitted at
`(x*W, y*H)` unmirrored, and double mirroring at a concrete Y is the
identity. -/
theorem mirror_pixel_transform_witness :
    ((⟨1/2, 1/4⟩ : Point).x * 320, (⟨1/2, 1/4⟩ : Point).y * 240) ∈
      pathPoints (drawStroke twoPointStroke 320 240 false) ∧
    transformY (1 - 1/4) 240 true = transformY (1/4) 240 false :=
  ⟨(mirror_pixel_transform twoPointStroke 320 240).2.2.1 ⟨1/2, 1/4⟩
      (by simp [twoPointStroke]),
   (mirror_pixel_transform twoPointStroke 320 240).2.2.2.2 (1/4)⟩

/-- C4.  A single-point stroke is rendered as a degenerate round-capped
segment (`moveTo` and `lineTo` at the same pixel) of line width exactly
`S.width` — which the raster backend paints as a filled disc of diameter
`S.width` — and its command list is nonempty; a zero-point stroke emits
no commands at all. -/
theorem single_point_dot (s : Stroke) (W H : ℚ) (m : Bool) :
    (∀ p : Point, s.points = [p] →
      drawStroke s W H m =
        [DrawCmd.beginPath, DrawCmd.setLineCap "round",
         DrawCmd.setLineJoin "round"]
        ++ (if s.isEraser then
              [DrawCmd.setCompositeOp CompositeOp.destinationOut,
               DrawCmd.setStrokeStyle "rgba(0,0,0,1)"]
            else
              [DrawCmd.setCompositeOp CompositeOp.sourceOver,
               DrawCmd.setStrokeStyle s.color])
        ++ [DrawCmd.setLineWidth s.width,
            DrawCmd.moveTo (p.x * W) (transformY p.y H m),
            DrawCmd.lineTo (p.x * W) (transformY p.y H m),
            DrawCmd.strokePath,
            DrawCmd.setCompositeOp CompositeOp.sourceOver] ∧
      drawStroke s W H m ≠ []) ∧
    (s.points = [] → drawStroke s W H m = []) := by
  constructor
  · intro p hp
    cases he : s.isEraser <;>
      simp [drawStroke, hp, he]
  · intro h
    simp [drawStroke, h]

/-- A concrete single-point pen stroke (a click) for C4's witness. -/
def dotStroke : Stroke :=
  { points := [⟨1/2, 1/2⟩], color := "#000000", width := 4,
    isEraser := false }

/-- A concrete zero-point stroke for C4's witness. -/
def emptyStroke : Stroke :=
  { points := [], color := "#000000", width := 4, isEraser := false }

/-- C4 witness: the click stroke renders the degenerate dot segment and a
nonempty command list; the empty stroke renders nothing. -/
theorem single_point_dot_witness :
    (drawStroke dotStroke 320 240 false =
      [DrawCmd.beginPath, DrawCmd.setLineCap "round",
       DrawCmd.setLineJoin "round"]
      ++ (if dotStroke.isEraser then
            [DrawCmd.setCompositeOp CompositeOp.destinationOut,
             DrawCmd.setStrokeStyle "rgba(0,0,0,1)"]
          else
            [DrawCmd.setCompositeOp CompositeOp.sourceOver,
             DrawCmd.setStrokeStyle dotStroke.color])
      ++ [DrawCmd.setLineWidth dotStroke.width,
          DrawCmd.moveTo ((⟨1/2, 1/2⟩ : Point).x * 320)
            (transformY (⟨1/2, 1/2⟩ : Point).y 240 false),
          DrawCmd.lineTo ((⟨1/2, 1/2⟩ : Point).x * 320)
            (transformY (⟨1/2, 1/2⟩ : Point).y 240 false),
          DrawCmd.strokePath,
          DrawCmd.setCompositeOp CompositeOp.sourceOver] ∧
      drawStroke dotStroke 320 240 false ≠ []) ∧
    drawStroke emptyStroke 320 240 false = [] :=
  ⟨(single_point_dot dotStroke 320 240 false).1 ⟨1/2, 1/2⟩ rfl,
   (single_point_dot emptyStroke 320 240 false).2 rfl⟩

/-- C6.  After `drawStroke` draws an eraser stroke (nonempty points,
`isEraser = true`), the context's compositing mode is source-over again
when the call returns, whatever mode it started in, so subsequent draws
are unaffected by the eraser's destination-out mode. -/
theorem eraser_resets_composite (s : Stroke) (W H : ℚ) (m : Bool)
    (init : CompositeOp) (hne : s.points ≠ []) (he : s.isEraser = true) :
    finalCompositeOp (drawStroke s W H m) init = CompositeOp.sourceOver := by
  match hp : s.points with
  | [] => exact absurd hp hne
  | p :: rest =>
    simp [drawStroke, hp, he, finalCompositeOp, List.foldl_append, applyCmd]

/-- C6 witness: a one-point eraser stroke starting from destination-out
mode ends in source-over. -/
theorem eraser_resets_composite_witness :
    finalCompositeOp
      (drawStroke
        { points := [⟨1/2, 1/2⟩], color := "#ff0000", width := 20,
          isEraser := true } 320 240 false)
      CompositeOp.destinationOut = CompositeOp.sourceOver :=
  eraser_resets_composite
    { points := [⟨1/2, 1/2⟩], color := "#ff0000", width := 20,
      isEraser := true }
    320 240 false CompositeOp.destinationOut (by simp) rfl

/-- C7.  The command list `drawStroke` emits for an eraser stroke does not
depend on the stroke's color: two eraser strokes with the same points and
width but different colors emit identical commands, hence produce
identical surface contents. -/
theorem eraser_color_irrelevant (s1 s2 : Stroke) (W H : ℚ) (m : Bool)
    (hp : s1.points = s2.points) (hw : s1.width = s2.width)
    (he1 : s1.isEraser = true) (he2 : s2.isEraser = true) :
    drawStroke s1 W H m = drawStroke s2 W H m := by
  obtain ⟨pts1, c1, w1, e1⟩ := s1
  obtain ⟨pts2, c2, w2, e2⟩ := s2
  simp only at hp hw he1 he2
  subst hp hw he1 he2
  cases pts1 <;> simp [drawStroke]

/-- C7 witness: red and blue eraser strokes over the same path emit the
same commands. -/
theorem eraser_color_irrelevant_witness :
    drawStroke
      { points := [⟨1/4, 1/4⟩, ⟨3/4, 3/4⟩], color := "#ff0000", width := 20,
        isEraser := true } 320 240 false =
    drawStroke
      { points := [⟨1/4, 1/4⟩, ⟨3/4, 3/4⟩], color := "#0000ff", width := 20,
        isEraser := true } 320 240 false :=
  eraser_color_irrelevant
    { points := [⟨1/4, 1/4⟩, ⟨3/4, 3/4⟩], color := "#ff0000", width := 20,
      isEraser := true }
    { points := [⟨1/4, 1/4⟩, ⟨3/4, 3/4⟩], color := "#0000ff", width := 20,
      isEraser := true }
    320 240 false rfl rfl rfl rfl

end MirrorWrite
